import Mathlib

/-!
Verification of the `neighborhood_life` schedule-generation and alarm-driven
execution engine (`example_workspace/neighborhood_life/` in the repository).

Python dictionaries are modelled as association lists that keep insertion
order (Python 3.7+ dict semantics): updating an existing key keeps its
position, a fresh key is appended at the end.  Python `float` weights are
modelled as `ℚ`.  Randomness is made explicit: `random.uniform(0, total)`
becomes a rational draw `r` passed in, `random.randint(lo, hi)` and
`random.choice(seq)` become seeds reduced modulo the relevant range, and
`random.shuffle` becomes a permutation parameter.  Exceptions are modelled
with `Option` (`none` = the call raised).
-/

set_option maxRecDepth 4096

namespace NeighborhoodLife

/-- Association-list lookup, Python `dict.get(k)` returning `None` on a
missing key. -/
def dict_get {α β : Type} [DecidableEq α] (m : List (α × β)) (k : α) : Option β :=
  (m.find? (fun kv => kv.1 = k)).map Prod.snd

/-- Association-list write, Python `m[k] = v`: an existing key keeps its
position, a fresh key is appended at the end. -/
def dict_set {α β : Type} [DecidableEq α] (m : List (α × β)) (k : α) (v : β) : List (α × β) :=
  if m.any (fun kv => kv.1 = k) then
    m.map (fun kv => if kv.1 = k then (k, v) else kv)
  else
    m ++ [(k, v)]

/-- Python `m[k] = m.get(k, 0.0) + d`, the additive-bias update used by all
three bias layers in `schedules.py`. -/
def dict_add {α : Type} [DecidableEq α] (m : List (α × ℚ)) (k : α) (d : ℚ) : List (α × ℚ) :=
  dict_set m k ((dict_get m k).getD 0 + d)

/-- Python `str.split(":")` on the character list of the string: split at
every colon, keeping empty pieces (`"::".split(":") == ["", "", ""]`). -/
def split_colon_aux : List Char → List Char → List (List Char)
  | [], cur => [cur.reverse]
  | c :: rest, cur =>
    if c = ':' then cur.reverse :: split_colon_aux rest []
    else split_colon_aux rest (c :: cur)

def split_colon (cs : List Char) : List (List Char) :=
  split_colon_aux cs []

/-- Decimal digit accumulator for `parse_int_chars`. -/
def parse_digits_aux : List Char → Nat → Option Nat
  | [], acc => some acc
  | c :: rest, acc =>
    if c.isDigit then parse_digits_aux rest (acc * 10 + (c.toNat - 48)) else none

/-- Python `int(s)` on a plain decimal literal with an optional sign;
`none` models the `ValueError` on an empty or non-numeric string. -/
def parse_int_chars : List Char → Option Int
  | [] => none
  | '-' :: rest =>
    if rest.isEmpty then none else (parse_digits_aux rest 0).map (fun n => -(n : Int))
  | '+' :: rest =>
    if rest.isEmpty then none else (parse_digits_aux rest 0).map (fun n => (n : Int))
  | cs => (parse_digits_aux cs 0).map (fun n => (n : Int))

/-- Model of `util.time_str_to_minutes`: split `"HH:MM"` on `":"` and return
`hh*60 + mm`; `none` models the `ValueError` Python raises when the string
does not split into exactly two integer parts.  Note the source performs no
range check on the parsed numbers. -/
def time_str_to_minutes (hhmm : String) : Option Int :=
  match split_colon hhmm.data with
  | [hh, mm] =>
    match parse_int_chars hh, parse_int_chars mm with
    | some h, some m => some (h * 60 + m)
    | _, _ => none
  | _ => none

/-- Python `random.randint(lo, hi)`: uniform integer in `[lo, hi]` both ends
inclusive, raising (`none`) when `lo > hi`.  The random draw is the seed
reduced modulo the size of the range. -/
def randint (lo hi : Int) (seed : Nat) : Option Int :=
  if lo ≤ hi then some (lo + ((seed % (hi - lo + 1).toNat : Nat) : Int)) else none

/-- The accumulation walk inside `util.weighted_choice` (lines 120-124):
return the first key whose running sum `upto + v` reaches `r`, or `none`
when the list is exhausted. -/
def walk_items : List (String × ℚ) → ℚ → ℚ → Option String
  | [], _, _ => none
  | (k, v) :: rest, r, upto =>
    if upto + v ≥ r then some k else walk_items rest r (upto + v)

/-- Model of `util.weighted_choice`: filter to strictly positive weights (clamping
with `max v 0` exactly as the source does); if nothing is left pick a
uniform key of the whole map (`random.choice`, raising — `none` — on an
empty map); otherwise walk the positive items accumulating and fall back to
the last positive item when the walk exhausts. -/
def weighted_choice (weights : List (String × ℚ)) (r : ℚ) (choiceSeed : Nat) : Option String :=
  let items := (weights.filter (fun kv => 0 < kv.2)).map (fun kv => (kv.1, max kv.2 0))
  if items.isEmpty then
    (weights.map Prod.fst)[choiceSeed % weights.length]?
  else
    match walk_items items r 0 with
    | some k => some k
    | none => (items.map Prod.fst).getLast?

lemma walk_items_mem {l : List (String × ℚ)} {r upto : ℚ} {k : String}
    (h : walk_items l r upto = some k) : k ∈ l.map Prod.fst := by
  induction l generalizing upto with
  | nil => simp [walk_items] at h
  | cons kv rest ih =>
    obtain ⟨k0, v0⟩ := kv
    simp only [walk_items] at h
    split at h
    · simp only [Option.some.injEq] at h
      simp [h]
    · exact List.mem_cons_of_mem _ (ih h)

lemma weighted_choice_items_keys (weights : List (String × ℚ)) :
    ((weights.filter (fun kv => 0 < kv.2)).map
        (fun kv => (kv.1, max kv.2 0))).map Prod.fst
      = (weights.filter (fun kv => 0 < kv.2)).map Prod.fst := by
  simp [List.map_map, Function.comp]

/-- Claim C3: for every non-empty weight map the selector returns some key of the
map: in the positive branch the walk (or its last-item fallback) stays
inside the filtered keys, and in the degenerate branch `random.choice`
picks an index below the map's length. -/
theorem weighted_choice_total (weights : List (String × ℚ)) (r : ℚ) (choiceSeed : Nat)
    (h : weights ≠ []) :
    ∃ k, weighted_choice weights r choiceSeed = some k ∧ k ∈ weights.map Prod.fst := by
  have hlen : 0 < weights.length := List.length_pos.mpr h
  unfold weighted_choice
  set items := (weights.filter (fun kv => 0 < kv.2)).map (fun kv => (kv.1, max kv.2 0)) with hitems
  by_cases hempty : items.isEmpty
  · simp only [hempty, if_true]
    have hmodlt : choiceSeed % weights.length < (weights.map Prod.fst).length := by
      rw [List.length_map]
      exact Nat.mod_lt _ hlen
    refine ⟨(weights.map Prod.fst)[choiceSeed % weights.length], ?_, ?_⟩
    · exact List.getElem?_eq_getElem hmodlt
    · exact List.getElem_mem _
  · simp only [hempty, if_false]
    have hsub : ∀ x ∈ items.map Prod.fst, x ∈ weights.map Prod.fst := by
      intro x hx
      rw [hitems, weighted_choice_items_keys] at hx
      rcases List.mem_map.mp hx with ⟨kv, hkv, hkx⟩
      exact hkx ▸ List.mem_map_of_mem Prod.fst (List.mem_of_mem_filter hkv)
    cases hwalk : walk_items items r 0 with
    | some k => exact ⟨k, rfl, hsub k (walk_items_mem hwalk)⟩
    | none =>
      have hne : items.map Prod.fst ≠ [] := by
        intro hcon
        apply hempty
        rw [List.isEmpty_iff]
        exact List.map_eq_nil_iff.mp hcon
      rcases List.getLast?_eq_getLast_of_ne_nil hne with hlast
      refine ⟨(items.map Prod.fst).getLast hne, hlast, hsub _ (List.getLast_mem hne)⟩

/-- Witness for C3 at a concrete map: base weights of the spec's own example
scenario (`WALK` 1, `HOME_IDLE` 1). -/
theorem weighted_choice_total_witness :
    ([("WALK", (1 : ℚ)), ("HOME_IDLE", 1)] ≠ ([] : List (String × ℚ))) ∧
      ∃ k, weighted_choice [("WALK", (1 : ℚ)), ("HOME_IDLE", 1)] (1/2) 0 = some k ∧
        k ∈ ([("WALK", (1 : ℚ)), ("HOME_IDLE", 1)]).map Prod.fst :=
  ⟨by decide, weighted_choice_total [("WALK", (1 : ℚ)), ("HOME_IDLE", 1)] (1/2) 0 (by decide)⟩

/-- A raw entry of `config.json`'s `time_blocks` list as `schedules.py`
reads it: `block['start']`, `block['duration_min'][0]`,
`block['duration_min'][1]`, `block['actions']`. -/
structure TimeBlockTemplate where
  start : String
  dlo : Int
  dhi : Int
  actions : List (String × ℚ)
deriving DecidableEq

/-- Model of `schedules.TimeBlock`. -/
structure TimeBlock where
  start_min : Int
  duration_min : Int
  action : String
  venue_tag : Option String
deriving DecidableEq

/-- Model of `schedules.DailySchedule`. -/
structure DailySchedule where
  sim_id : Nat
  blocks : List TimeBlock
deriving DecidableEq

/-- Model of `util.NLConfig` (the parsed configuration fields). -/
structure NLConfig where
  participant_count : Int
  time_blocks : List TimeBlockTemplate
  trait_bias : List (String × List (String × ℚ))
  weather_bias : List (String × List (String × ℚ))
  weekend_bias : List (String × ℚ)
  news_enabled : Bool
  debug_logging : Bool
deriving DecidableEq

/-- The slice of a `SimInfo` object the engine reads: identity, trait names
(for the trait-bias layer) and the candidacy flags used by
`util.select_participant_sims`. -/
structure SimInfo where
  sim_id : Nat
  traits : List String
  is_human : Bool
  is_baby : Bool
  is_instanced : Bool
  is_npc : Bool
  is_played : Bool
deriving DecidableEq

/-- Model of `schedules.ScheduleBuilder._derive_venue_tag`: the static
action-to-venue lookup (`WALK`/`JOG` map to `None` explicitly, every other
unknown action falls through `dict.get`'s `None` default — observably the
same). -/
def derive_venue_tag (action : String) : Option String :=
  if action = "CAFE_IDLE" then some "cafe"
  else if action = "LIB_IDLE" then some "library"
  else if action = "GYM_IDLE" then some "gym"
  else if action = "DINING_IDLE" then some "dining"
  else if action = "PARK_WALK" then some "park"
  else if action = "NEIGHBOR_VISIT" then some "residential"
  else if action = "HOME_IDLE" then some "residential"
  else none

/-- Apply one additive delta table to a weight map
(`weights[act] = weights.get(act, 0.0) + delta` for each entry). -/
def apply_bias_map (weights : List (String × ℚ)) (adds : List (String × ℚ)) :
    List (String × ℚ) :=
  adds.foldl (fun w kv => dict_add w kv.1 kv.2) weights

/-- Model of `ScheduleBuilder._apply_trait_bias`: for each configured trait table
whose trait name the participant carries, add its deltas. -/
def apply_trait_bias (traitBias : List (String × List (String × ℚ)))
    (names : List String) (weights : List (String × ℚ)) : List (String × ℚ) :=
  traitBias.foldl (fun w tb => if names.contains tb.1 then apply_bias_map w tb.2 else w) weights

/-- The key selection of `ScheduleBuilder._apply_weather_bias`:
`'Rain' if 'RAIN' in name else 'Snow' if 'SNOW' in name else None`
(substring containment modelled via `splitOn`). -/
def weather_key (name : String) : Option String :=
  if (name.splitOn "RAIN").length > 1 then some "Rain"
  else if (name.splitOn "SNOW").length > 1 then some "Snow"
  else none

/-- Model of `ScheduleBuilder._apply_weather_bias`: no weather name means no change;
otherwise look the Rain/Snow key up in the config table and apply it; the
Python guard `if not adds: return` also skips an *empty* delta table. -/
def apply_weather_bias (weatherBias : List (String × List (String × ℚ)))
    (wname : Option String) (weights : List (String × ℚ)) : List (String × ℚ) :=
  match wname with
  | none => weights
  | some n =>
    match (weather_key n).bind (fun k => dict_get weatherBias k) with
    | none => weights
    | some adds => if adds.isEmpty then weights else apply_bias_map weights adds

/-- The random draws one loop iteration of `build_for_sims` consumes:
the `randint` seed for the duration, the `uniform` draw and the `choice`
seed inside `weighted_choice`. -/
structure BlockDraws where
  durSeed : Nat
  r : ℚ
  choiceSeed : Nat

/-- One iteration of the inner template loop of
`ScheduleBuilder.build_for_sims` (lines 35-47): parse the start time, draw
the duration, copy the base weights, apply trait, weather and (on weekends)
weekend bias, select the action, derive the venue tag. -/
def build_block (cfg : NLConfig) (si : SimInfo) (weekend : Bool) (wname : Option String)
    (tb : TimeBlockTemplate) (d : BlockDraws) : Option TimeBlock := do
  let start ← time_str_to_minutes tb.start
  let dur ← randint tb.dlo tb.dhi d.durSeed
  let w1 := apply_trait_bias cfg.trait_bias si.traits tb.actions
  let w2 := apply_weather_bias cfg.weather_bias wname w1
  let w3 := if weekend then apply_bias_map w2 cfg.weekend_bias else w2
  let action ← weighted_choice w3 d.r d.choiceSeed
  pure { start_min := start, duration_min := dur, action := action,
         venue_tag := derive_venue_tag action }

/-- The template loop of `build_for_sims` for one participant, threading the
template index into the draw stream. -/
def build_blocks (cfg : NLConfig) (si : SimInfo) (weekend : Bool) (wname : Option String) :
    List TimeBlockTemplate → (Nat → BlockDraws) → Nat → Option (List TimeBlock)
  | [], _, _ => some []
  | tb :: rest, d, j => do
    let b ← build_block cfg si weekend wname tb (d j)
    let bs ← build_blocks cfg si weekend wname rest d (j + 1)
    pure (b :: bs)

/-- The participant loop of `build_for_sims`: one schedule built per
participant, written into the schedules dict (`schedules[sid] = ...`). -/
def build_loop (cfg : NLConfig) (weekend : Bool) (wname : Option String)
    (draws : Nat → Nat → BlockDraws) :
    List SimInfo → Nat → List (Nat × DailySchedule) → Option (List (Nat × DailySchedule))
  | [], _, acc => some acc
  | si :: rest, i, acc => do
    let blocks ← build_blocks cfg si weekend wname cfg.time_blocks (draws i) 0
    build_loop cfg weekend wname draws rest (i + 1)
      (dict_set acc si.sim_id { sim_id := si.sim_id, blocks := blocks })

/-- Model of `ScheduleBuilder.build_for_sims`.  The weather name is queried once for
the whole batch (the source reads `self._get_weather_type()` before the
loop), so it is a single parameter. -/
def build_for_sims (cfg : NLConfig) (weekend : Bool) (wname : Option String)
    (sims : List SimInfo) (draws : Nat → Nat → BlockDraws) :
    Option (List (Nat × DailySchedule)) :=
  build_loop cfg weekend wname draws sims 0 []

example :
    build_for_sims
      { participant_count := 1,
        time_blocks := [{ start := "08:00", dlo := 30, dhi := 30, actions := [("WALK", 1)] }],
        trait_bias := [], weather_bias := [], weekend_bias := [],
        news_enabled := true, debug_logging := false }
      false none
      [{ sim_id := 1, traits := [], is_human := true, is_baby := false,
         is_instanced := false, is_npc := true, is_played := false }]
      (fun _ _ => ⟨0, 0, 0⟩)
      = some [(1, { sim_id := 1,
                    blocks := [{ start_min := 480, duration_min := 30,
                                 action := "WALK", venue_tag := none }] })] := by
  with_unfolding_all decide

/-- Model of `util.select_participant_sims` candidacy test (line 106-107):
human, not a baby, not instanced, and NPC-or-unplayed. -/
def eligible (s : SimInfo) : Bool :=
  s.is_human && !s.is_baby && !s.is_instanced && (s.is_npc || !s.is_played)

/-- Model of `util.select_participant_sims`: filter the pool to candidates, shuffle
(`random.shuffle`, modelled as a permutation parameter), and slice off the
first `max(1, count)` entries. -/
def select_participant_sims (pool : List SimInfo) (shuffle : List SimInfo → List SimInfo)
    (count : Int) : List SimInfo :=
  ((shuffle (pool.filter eligible)).take (max 1 count).toNat)

/-- The two alarm callbacks of `director.py`. -/
inductive Phase where
  | blockStart
  | blockEnd
deriving DecidableEq

/-- One registered one-shot alarm of the host facility
(`CommonAlarmUtils.set_alarm(create_time_span(minutes=delay), cb,
repeating=False, data=(sim_id, block))`). -/
structure AlarmReg where
  handle : Nat
  delay : Int
  sim_id : Nat
  block : TimeBlock
  phase : Phase
deriving DecidableEq

/-- The host alarm facility: a handle allocator plus the histories of
registrations and cancellations. -/
structure World where
  nextHandle : Nat
  registered : List AlarmReg
  cancelled : List Nat
deriving DecidableEq

/-- The mutable fields of `NeighborhoodDirector`: `self._schedules` and
`self._alarms`. -/
structure DirectorState where
  schedules : List (Nat × DailySchedule)
  alarms : List Nat
deriving DecidableEq

/-- Model of `CommonAlarmUtils.set_alarm`: allocate a fresh handle and record the
registration. -/
def set_alarm (w : World) (delay : Int) (sid : Nat) (b : TimeBlock) (p : Phase) :
    Nat × World :=
  (w.nextHandle,
   { w with nextHandle := w.nextHandle + 1,
            registered := w.registered ++
              [{ handle := w.nextHandle, delay := delay, sim_id := sid,
                 block := b, phase := p }] })

/-- Model of `CommonAlarmUtils.cancel_alarm`: record the cancellation. -/
def cancel_alarm (w : World) (h : Nat) : World :=
  { w with cancelled := w.cancelled ++ [h] }

/-- The body of the inner loop of `NeighborhoodDirector._schedule_alarms`
(lines 41-47): register the start alarm at `max(0, start - now)` and the
end alarm at that delay plus the duration, appending both handles to
`self._alarms`. -/
def schedule_block_alarms (now_min : Int) (sid : Nat) (b : TimeBlock)
    (st : DirectorState) (w : World) : DirectorState × World :=
  let delta := max 0 (b.start_min - now_min)
  let hw := set_alarm w delta sid b Phase.blockStart
  let hw2 := set_alarm hw.2 (delta + b.duration_min) sid b Phase.blockEnd
  ({ st with alarms := (st.alarms ++ [hw.1]) ++ [hw2.1] }, hw2.2)

def schedule_alarms_blocks (now_min : Int) (sid : Nat) :
    List TimeBlock → DirectorState → World → DirectorState × World
  | [], st, w => (st, w)
  | b :: rest, st, w =>
    let sw := schedule_block_alarms now_min sid b st w
    schedule_alarms_blocks now_min sid rest sw.1 sw.2

/-- Model of `NeighborhoodDirector._schedule_alarms`: iterate the schedule dict's
values (the incoming list of entries), arming two alarms per block. -/
def schedule_alarms (now_min : Int) :
    List (Nat × DailySchedule) → DirectorState → World → DirectorState × World
  | [], st, w => (st, w)
  | e :: rest, st, w =>
    let sw := schedule_alarms_blocks now_min e.2.sim_id e.2.blocks st w
    schedule_alarms now_min rest sw.1 sw.2

/-- Model of `NeighborhoodDirector.start_for_today`: select the participants, build
and *replace* the schedule map, then arm alarms for the new schedules.
Note the source never clears or cancels `self._alarms` here. -/
def start_for_today (cfg : NLConfig) (weekend : Bool) (wname : Option String)
    (now_min : Int) (pool : List SimInfo) (shuffle : List SimInfo → List SimInfo)
    (draws : Nat → Nat → BlockDraws) (st : DirectorState) (w : World) :
    Option (DirectorState × World) := do
  let sims := select_participant_sims pool shuffle cfg.participant_count
  let m ← build_for_sims cfg weekend wname sims draws
  pure (schedule_alarms now_min m { st with schedules := m } w)

/-- Model of `NeighborhoodDirector.stop_all`: cancel every recorded handle, then
clear the handle list and the schedule map. -/
def stop_all (st : DirectorState) (w : World) : DirectorState × World :=
  ({ schedules := [], alarms := [] }, st.alarms.foldl cancel_alarm w)

/-- The calls the Director makes to its collaborators when an alarm
fires. -/
inductive DirectorEvent where
  | postStart (sim_id : Nat) (b : TimeBlock)
  | postEnd (sim_id : Nat) (b : TimeBlock)
  | execute (sim_id : Nat) (b : TimeBlock)
  | cleanup (sim_id : Nat) (b : TimeBlock)
deriving DecidableEq

/-- Model of `NeighborhoodDirector._on_block_start`: resolve the participant
(`CommonSimUtils.get_sim_info`); on failure return with no effect,
otherwise notify then execute, in that order. -/
def on_block_start (resolve : Nat → Option SimInfo) (sid : Nat) (b : TimeBlock) :
    List DirectorEvent :=
  match resolve sid with
  | none => []
  | some _ => [DirectorEvent.postStart sid b, DirectorEvent.execute sid b]

/-- Model of `NeighborhoodDirector._on_block_end`: same shape with the end
notification and the cleanup hook. -/
def on_block_end (resolve : Nat → Option SimInfo) (sid : Nat) (b : TimeBlock) :
    List DirectorEvent :=
  match resolve sid with
  | none => []
  | some _ => [DirectorEvent.postEnd sid b, DirectorEvent.cleanup sid b]

/-- The raw JSON object `NLConfig.load` reads: every recognised key may be
absent (`data.get(key, default)`). -/
structure RawConfig where
  participant_count : Option Int
  time_blocks : Option (List TimeBlockTemplate)
  trait_bias : Option (List (String × List (String × ℚ)))
  weather_bias : Option (List (String × List (String × ℚ)))
  weekend_bias : Option (List (String × ℚ))
  news_enabled : Option Bool
  debug_logging : Option Bool

/-- The literal fallback dict of `NLConfig.load` (util.py lines 68-76),
used when no config file is found: every key present. -/
def default_raw : RawConfig :=
  { participant_count := some 8, time_blocks := some [], trait_bias := some [],
    weather_bias := some [], weekend_bias := some [], news_enabled := some true,
    debug_logging := some true }

/-- The `NLConfig(...)` constructor call of `NLConfig.load` (lines 78-86):
each field read with `data.get(key, default)`. -/
def parse_config (d : RawConfig) : NLConfig :=
  { participant_count := d.participant_count.getD 8,
    time_blocks := d.time_blocks.getD [],
    trait_bias := d.trait_bias.getD [],
    weather_bias := d.weather_bias.getD [],
    weekend_bias := d.weekend_bias.getD [],
    news_enabled := d.news_enabled.getD true,
    debug_logging := d.debug_logging.getD true }

/-- Model of `NLConfig.load` with the class-level cache made explicit: the first
component of the result is the returned config, the second the cache cell
(`NLConfig._cached`) after the call.  `source` is the JSON data of the
first existing candidate file, `none` when no file is found. -/
def NLConfig.load (cached : Option NLConfig) (source : Option RawConfig) :
    NLConfig × Option NLConfig :=
  match cached with
  | some c => (c, some c)
  | none =>
    let data := source.getD default_raw
    let cfg := parse_config data
    (cfg, some cfg)

/-- The alarm entries §4.3 of the design prescribes for one schedule's
blocks, with `h0` the next free handle: per block a Start entry at
`max(0, startMinute - nowMinute)` and an End entry at that delay plus the
duration, both carrying `(participantId, block)`. -/
def expected_block_regs (now_min : Int) (sid : Nat) :
    List TimeBlock → Nat → List AlarmReg
  | [], _ => []
  | b :: rest, h0 =>
    let delta := max 0 (b.start_min - now_min)
    { handle := h0, delay := delta, sim_id := sid, block := b,
      phase := Phase.blockStart } ::
    { handle := h0 + 1, delay := delta + b.duration_min, sim_id := sid, block := b,
      phase := Phase.blockEnd } ::
    expected_block_regs now_min sid rest (h0 + 2)

/-- The full expected registration list across a schedule map. -/
def expected_regs (now_min : Int) :
    List (Nat × DailySchedule) → Nat → List AlarmReg
  | [], _ => []
  | e :: rest, h0 =>
    expected_block_regs now_min e.2.sim_id e.2.blocks h0 ++
    expected_regs now_min rest (h0 + 2 * e.2.blocks.length)

/-- Total number of blocks across a schedule map. -/
def total_blocks (scheds : List (Nat × DailySchedule)) : Nat :=
  (scheds.map (fun e => e.2.blocks.length)).sum

/-- Sample fixture: the spec's §8 example template
(`start "08:00"`, duration range `[30, 30]`, a single `WALK` action). -/
def sample_template : TimeBlockTemplate :=
  { start := "08:00", dlo := 30, dhi := 30, actions := [("WALK", 1)] }

/-- Sample fixture: a one-template configuration with no bias layers. -/
def sample_cfg : NLConfig :=
  { participant_count := 1, time_blocks := [sample_template],
    trait_bias := [], weather_bias := [], weekend_bias := [],
    news_enabled := true, debug_logging := false }

/-- Sample fixture: an eligible candidate (human NPC, not a baby, not
instanced). -/
def sample_sim : SimInfo :=
  { sim_id := 1, traits := [], is_human := true, is_baby := false,
    is_instanced := false, is_npc := true, is_played := false }

/-- Sample fixture: a second eligible candidate. -/
def sample_sim2 : SimInfo :=
  { sim_id := 2, traits := [], is_human := true, is_baby := false,
    is_instanced := false, is_npc := true, is_played := false }

/-- Sample fixture: the block `build_for_sims` produces from
`sample_template` with all-zero draws. -/
def sample_block : TimeBlock :=
  { start_min := 480, duration_min := 30, action := "WALK", venue_tag := none }

/-- Configuration whose single template has an empty action-weight table
and no bias layers anywhere. -/
def empty_actions_cfg : NLConfig :=
  { participant_count := 2,
    time_blocks := [{ start := "08:00", dlo := 30, dhi := 30, actions := [] }],
    trait_bias := [], weather_bias := [], weekend_bias := [],
    news_enabled := true, debug_logging := false }

/-- Configuration whose single template carries an out-of-range start time
(`"25:00"`) and a zero-duration range. -/
def bad_template_cfg : NLConfig :=
  { participant_count := 1,
    time_blocks := [{ start := "25:00", dlo := 0, dhi := 0, actions := [("WALK", 1)] }],
    trait_bias := [], weather_bias := [], weekend_bias := [],
    news_enabled := true, debug_logging := false }

/-- Configuration whose single template has a negative duration range. -/
def neg_duration_cfg : NLConfig :=
  { participant_count := 1,
    time_blocks := [{ start := "08:00", dlo := -5, dhi := -5, actions := [("WALK", 1)] }],
    trait_bias := [], weather_bias := [], weekend_bias := [],
    news_enabled := true, debug_logging := false }

lemma foldl_cancel_alarm (hs : List Nat) (w : World) :
    hs.foldl cancel_alarm w = { w with cancelled := w.cancelled ++ hs } := by
  induction hs generalizing w with
  | nil => simp
  | cons h t ih =>
    simp only [List.foldl_cons, ih, cancel_alarm, List.append_assoc,
      List.singleton_append]

/-- Claim C7: `stop_all` cancels every recorded handle (Start and End alike),
clears the handle list and discards all schedules, touching nothing else of
the host facility; and on an already-inactive Director (no alarms, no
schedules) it is a no-op leaving the state unchanged. -/
theorem stop_all_drains_and_idempotent (st : DirectorState) (w : World) :
    (stop_all st w).1.alarms = [] ∧
    (stop_all st w).1.schedules = [] ∧
    (stop_all st w).2.cancelled = w.cancelled ++ st.alarms ∧
    (stop_all st w).2.registered = w.registered ∧
    (stop_all st w).2.nextHandle = w.nextHandle ∧
    (∀ h ∈ st.alarms, h ∈ (stop_all st w).2.cancelled) ∧
    (st.alarms = [] → st.schedules = [] → stop_all st w = (st, w)) := by
  unfold stop_all
  rw [foldl_cancel_alarm]
  refine ⟨rfl, rfl, rfl, rfl, rfl, ?_, ?_⟩
  · intro h hh
    exact List.mem_append_right _ hh
  · intro ha hs
    cases st with
    | mk sch al =>
      simp only at ha hs
      subst ha hs
      simp

/-- Witness for C7 on a concrete inactive Director. -/
theorem stop_all_drains_and_idempotent_witness :
    stop_all { schedules := [], alarms := [] }
        { nextHandle := 5, registered := [], cancelled := [] }
      = ({ schedules := [], alarms := [] },
         { nextHandle := 5, registered := [], cancelled := [] }) :=
  (stop_all_drains_and_idempotent { schedules := [], alarms := [] }
    { nextHandle := 5, registered := [], cancelled := [] }).2.2.2.2.2.2 rfl rfl

/-- Claim C8: when a Start alarm fires, an unresolvable participant is skipped
silently (no collaborator call at all); otherwise the start notification is
dispatched before the execution collaborator is invoked. -/
theorem on_block_start_order (resolve : Nat → Option SimInfo) (sid : Nat) (b : TimeBlock) :
    (resolve sid = none → on_block_start resolve sid b = []) ∧
    (∀ si, resolve sid = some si →
      on_block_start resolve sid b =
        [DirectorEvent.postStart sid b, DirectorEvent.execute sid b]) := by
  constructor
  · intro h
    simp [on_block_start, h]
  · intro si h
    simp [on_block_start, h]

/-- Witness for C8: both branches at concrete resolvers. -/
theorem on_block_start_order_witness :
    on_block_start (fun _ => none) 1 sample_block = [] ∧
    on_block_start (fun _ => some sample_sim) 1 sample_block =
      [DirectorEvent.postStart 1 sample_block, DirectorEvent.execute 1 sample_block] :=
  ⟨(on_block_start_order (fun _ => none) 1 sample_block).1 rfl,
   (on_block_start_order (fun _ => some sample_sim) 1 sample_block).2 sample_sim rfl⟩

/-- Claim C9: a first `load` that finds no config source returns the built-in
default (8 participants, empty time blocks, notifications on) and caches
it; every later call returns the cached instance unchanged, whatever
sources exist by then. -/
theorem nlconfig_load_default_and_cached :
    ((NLConfig.load none none).1.participant_count = 8 ∧
     (NLConfig.load none none).1.time_blocks = [] ∧
     (NLConfig.load none none).1.news_enabled = true ∧
     (NLConfig.load none none).2 = some (NLConfig.load none none).1) ∧
    (∀ (c : NLConfig) (src : Option RawConfig),
      NLConfig.load (some c) src = (c, some c)) :=
  ⟨⟨rfl, rfl, rfl, rfl⟩, fun _ _ => rfl⟩

/-- Claim C1 (code bug): a second activation while alarms are outstanding stacks
rather than replaces.  Starting `Active` with live handle `7`, a second
`start_for_today` leaves `7` in the handle list, cancels nothing, and arms
two further alarms on top — the earlier activation's alarm is still live,
contrary to the deactivate-then-activate behaviour §5 of the design
requires. -/
theorem second_activation_stacks_alarms :
    start_for_today sample_cfg false none 0 [sample_sim] id (fun _ _ => ⟨0, 0, 0⟩)
        { schedules := [], alarms := [7] }
        { nextHandle := 100, registered := [], cancelled := [] }
      = some
        ({ schedules := [(1, { sim_id := 1, blocks := [sample_block] })],
           alarms := [7, 100, 101] },
         { nextHandle := 102,
           registered :=
             [{ handle := 100, delay := 480, sim_id := 1, block := sample_block,
                phase := Phase.blockStart },
              { handle := 101, delay := 510, sim_id := 1, block := sample_block,
                phase := Phase.blockEnd }],
           cancelled := [] }) := by
  with_unfolding_all decide

/-- Claim C2 (code bug): an empty weight table makes the selector raise
(`random.choice` on an empty sequence, modelled as `none`), and the failure
is *not* contained per participant: with two requested participants and a
template whose action table is empty, `build_for_sims` aborts the whole
batch and produces no schedule for anyone. -/
theorem empty_weight_table_aborts_batch :
    weighted_choice [] 0 0 = none ∧
    build_for_sims empty_actions_cfg false none [sample_sim, sample_sim2]
        (fun _ _ => ⟨0, 0, 0⟩) = none := by
  with_unfolding_all decide

/-- Claim C10: the selector returns at most `max(1, count)` participants, all
drawn from the eligible candidate pool; a non-positive request still
returns up to one candidate (exactly one when any candidate exists). -/
theorem select_participant_sims_bounds (pool : List SimInfo)
    (shuffle : List SimInfo → List SimInfo) (count : Int)
    (hperm : ∀ l : List SimInfo, (shuffle l).Perm l) :
    (select_participant_sims pool shuffle count).length ≤ (max 1 count).toNat ∧
    (select_participant_sims pool shuffle count).length ≤ (pool.filter eligible).length ∧
    (∀ s ∈ select_participant_sims pool shuffle count, s ∈ pool.filter eligible) ∧
    (count ≤ 0 →
      (select_participant_sims pool shuffle count).length
        = min 1 (pool.filter eligible).length) := by
  unfold select_participant_sims
  have hlen : (shuffle (pool.filter eligible)).length = (pool.filter eligible).length :=
    (hperm _).length_eq
  refine ⟨?_, ?_, ?_, ?_⟩
  · rw [List.length_take]
    exact min_le_left _ _
  · rw [List.length_take, hlen]
    exact min_le_right _ _
  · intro s hs
    exact ((hperm _).mem_iff).mp (List.mem_of_mem_take hs)
  · intro hc
    rw [List.length_take, hlen]
    have h1 : max 1 count = 1 := max_eq_left (le_trans hc zero_le_one)
    rw [h1]
    rfl

/-- Witness for C10 with the identity shuffle, a one-candidate pool and a
non-positive request. -/
theorem select_participant_sims_bounds_witness :
    (∀ l : List SimInfo, (id l).Perm l) ∧
    ((select_participant_sims [sample_sim] id 0).length ≤ (max 1 (0 : Int)).toNat ∧
     (select_participant_sims [sample_sim] id 0).length
        ≤ ([sample_sim].filter eligible).length ∧
     (∀ s ∈ select_participant_sims [sample_sim] id 0,
        s ∈ [sample_sim].filter eligible) ∧
     ((0 : Int) ≤ 0 →
       (select_participant_sims [sample_sim] id 0).length
         = min 1 ([sample_sim].filter eligible).length)) :=
  ⟨fun l => List.Perm.refl l,
   select_participant_sims_bounds [sample_sim] id 0 (fun l => List.Perm.refl l)⟩

lemma schedule_alarms_blocks_spec (now_min : Int) (sid : Nat) (bs : List TimeBlock)
    (st : DirectorState) (w : World) :
    schedule_alarms_blocks now_min sid bs st w =
      ({ st with alarms := st.alarms ++
            (expected_block_regs now_min sid bs w.nextHandle).map AlarmReg.handle },
       { w with nextHandle := w.nextHandle + 2 * bs.length,
                registered := w.registered ++
                  expected_block_regs now_min sid bs w.nextHandle }) := by
  induction bs generalizing st w with
  | nil => simp [schedule_alarms_blocks, expected_block_regs]
  | cons b rest ih =>
    simp only [schedule_alarms_blocks, schedule_block_alarms, set_alarm,
      expected_block_regs]
    rw [ih]
    simp only [List.map_cons, List.append_assoc, List.cons_append, List.nil_append,
      List.length_cons]
    rw [show w.nextHandle + 2 * (rest.length + 1)
          = w.nextHandle + 1 + 1 + 2 * rest.length from by ring]

lemma schedule_alarms_spec (now_min : Int) (scheds : List (Nat × DailySchedule))
    (st : DirectorState) (w : World) :
    schedule_alarms now_min scheds st w =
      ({ st with alarms := st.alarms ++
            (expected_regs now_min scheds w.nextHandle).map AlarmReg.handle },
       { w with nextHandle := w.nextHandle + 2 * total_blocks scheds,
                registered := w.registered ++
                  expected_regs now_min scheds w.nextHandle }) := by
  induction scheds generalizing st w with
  | nil => simp [schedule_alarms, expected_regs, total_blocks]
  | cons e rest ih =>
    simp only [schedule_alarms, expected_regs]
    rw [schedule_alarms_blocks_spec, ih]
    simp only [List.map_append, List.append_assoc, total_blocks, List.map_cons,
      List.sum_cons]
    rw [show w.nextHandle
            + 2 * (e.2.blocks.length + (List.map (fun q => q.2.blocks.length) rest).sum)
          = w.nextHandle + 2 * e.2.blocks.length
            + 2 * (List.map (fun q => q.2.blocks.length) rest).sum from by ring]

/-- Claim C6 (amended): on arming, exactly two one-shot alarms per block of every
schedule are registered, a Start entry at delay
`max(0, startMinute - nowMinute)` and an End entry at that delay plus the
block's duration, both carrying `(participantId, block)`, and every handle
is recorded in the Director's handle list; for every block whose duration
is nonnegative the Start delay is at most the End delay.  (The source
performs no sign check: a negative configured duration range yields an End
delay strictly below the Start delay, see the counterexample.) -/
theorem schedule_alarms_registers_start_end_pairs (now_min : Int)
    (scheds : List (Nat × DailySchedule)) (st : DirectorState) (w : World) :
    ((schedule_alarms now_min scheds st w).2.registered
        = w.registered ++ expected_regs now_min scheds w.nextHandle ∧
     (schedule_alarms now_min scheds st w).1.alarms
        = st.alarms ++ (expected_regs now_min scheds w.nextHandle).map AlarmReg.handle) ∧
    (∀ e ∈ scheds, ∀ b ∈ e.2.blocks, 0 ≤ b.duration_min →
      max 0 (b.start_min - now_min) ≤ max 0 (b.start_min - now_min) + b.duration_min) := by
  constructor
  · rw [schedule_alarms_spec]
    exact ⟨rfl, rfl⟩
  · intro e _ b _ hd
    exact le_add_of_nonneg_right hd

/-- Witness for C6's amended theorem on the spec's §8 example block
(`startMinute = 480`, duration 30, `nowMinute = 420`). -/
theorem schedule_alarms_registers_start_end_pairs_witness :
    max 0 (sample_block.start_min - 420)
      ≤ max 0 (sample_block.start_min - 420) + sample_block.duration_min :=
  (schedule_alarms_registers_start_end_pairs 420
      [(1, { sim_id := 1, blocks := [sample_block] })]
      { schedules := [], alarms := [] }
      { nextHandle := 0, registered := [], cancelled := [] }).2
    (1, { sim_id := 1, blocks := [sample_block] }) (by simp)
    sample_block (by simp) (by decide)

/-- Claim C6 counterexample: a configured negative duration range survives to the
alarm layer, so the End alarm is registered with delay `-5`, strictly below
the Start alarm's delay `0` — the claim's final inequality fails on the
code as stated. -/
theorem end_alarm_before_start_alarm :
    start_for_today neg_duration_cfg false none 480 [sample_sim] id
        (fun _ _ => ⟨0, 0, 0⟩)
        { schedules := [], alarms := [] }
        { nextHandle := 0, registered := [], cancelled := [] }
      = some
        ({ schedules :=
             [(1, { sim_id := 1,
                    blocks := [{ start_min := 480, duration_min := -5,
                                 action := "WALK", venue_tag := none }] })],
           alarms := [0, 1] },
         { nextHandle := 2,
           registered :=
             [{ handle := 0, delay := 0, sim_id := 1,
                block := { start_min := 480, duration_min := -5,
                           action := "WALK", venue_tag := none },
                phase := Phase.blockStart },
              { handle := 1, delay := -5, sim_id := 1,
                block := { start_min := 480, duration_min := -5,
                           action := "WALK", venue_tag := none },
                phase := Phase.blockEnd }],
           cancelled := [] }) ∧
    (-5 : Int) < 0 := by
  with_unfolding_all decide

lemma randint_bounds {lo hi : Int} {s : Nat} {d : Int}
    (h : randint lo hi s = some d) : lo ≤ d ∧ d ≤ hi := by
  unfold randint at h
  split at h
  · rename_i hle
    rw [Option.some.injEq] at h
    subst h
    have hmod : s % (hi - lo + 1).toNat < (hi - lo + 1).toNat :=
      Nat.mod_lt _ (by omega)
    omega
  · exact absurd h (by simp)

lemma build_block_fields {cfg : NLConfig} {si : SimInfo} {weekend : Bool}
    {wname : Option String} {tb : TimeBlockTemplate} {d : BlockDraws} {b : TimeBlock}
    (h : build_block cfg si weekend wname tb d = some b) :
    time_str_to_minutes tb.start = some b.start_min ∧
    randint tb.dlo tb.dhi d.durSeed = some b.duration_min := by
  simp only [build_block, bind, Option.bind_eq_some, Option.pure_def,
    Option.some.injEq] at h
  obtain ⟨start, h1, dur, h2, act, h3, hb⟩ := h
  subst hb
  exact ⟨h1, h2⟩

lemma build_blocks_fields {cfg : NLConfig} {si : SimInfo} {weekend : Bool}
    {wname : Option String} (tps : List TimeBlockTemplate) :
    ∀ (d : Nat → BlockDraws) (j : Nat) (bs : List TimeBlock),
    build_blocks cfg si weekend wname tps d j = some bs →
    bs.length = tps.length ∧
    ∀ i (hi : i < tps.length) (hi2 : i < bs.length),
      time_str_to_minutes (tps.get ⟨i, hi⟩).start = some ((bs.get ⟨i, hi2⟩).start_min) ∧
      ∃ s : Nat, randint (tps.get ⟨i, hi⟩).dlo (tps.get ⟨i, hi⟩).dhi s
        = some ((bs.get ⟨i, hi2⟩).duration_min) := by
  induction tps with
  | nil =>
    intro d j bs h
    simp only [build_blocks, Option.some.injEq] at h
    subst h
    exact ⟨rfl, fun i hi _ => absurd hi (Nat.not_lt_zero i)⟩
  | cons tb rest ih =>
    intro d j bs h
    simp only [build_blocks, bind, Option.bind_eq_some, Option.pure_def,
      Option.some.injEq] at h
    obtain ⟨b, hb, rest', hrest, hbs⟩ := h
    subst hbs
    obtain ⟨hlen, hidx⟩ := ih d (j + 1) rest' hrest
    refine ⟨by simp [hlen], ?_⟩
    intro i hi hi2
    cases i with
    | zero =>
      obtain ⟨h1, h2⟩ := build_block_fields hb
      exact ⟨h1, (d j).durSeed, h2⟩
    | succ n =>
      have hn : n < rest.length := by simpa using hi
      have hn2 : n < rest'.length := by simpa using hi2
      exact hidx n hn hn2

lemma mem_dict_set {α β : Type} [DecidableEq α] {m : List (α × β)} {k : α} {v : β}
    {p : α × β} (hp : p ∈ dict_set m k v) : p ∈ m ∨ p = (k, v) := by
  unfold dict_set at hp
  split at hp
  · rcases List.mem_map.mp hp with ⟨q, hq, he⟩
    by_cases hqk : q.1 = k
    · rw [if_pos hqk] at he
      exact Or.inr he.symm
    · rw [if_neg hqk] at he
      exact Or.inl (he ▸ hq)
  · rcases List.mem_append.mp hp with h | h
    · exact Or.inl h
    · right
      simpa using h

lemma dict_set_fresh {α β : Type} [DecidableEq α] {m : List (α × β)} {k : α} {v : β}
    (hk : ∀ q ∈ m, q.1 ≠ k) : dict_set m k v = m ++ [(k, v)] := by
  unfold dict_set
  rw [if_neg]
  simp only [List.any_eq_true, decide_eq_true_eq, not_exists, not_and]
  exact hk

lemma build_loop_entries {cfg : NLConfig} {weekend : Bool} {wname : Option String}
    {draws : Nat → Nat → BlockDraws} (sims : List SimInfo) :
    ∀ (i : Nat) (acc m : List (Nat × DailySchedule)),
    build_loop cfg weekend wname draws sims i acc = some m →
    ∀ p ∈ m, p ∈ acc ∨
      ∃ si ∈ sims, ∃ (j : Nat) (blocks : List TimeBlock),
        build_blocks cfg si weekend wname cfg.time_blocks (draws j) 0 = some blocks ∧
        p = (si.sim_id, { sim_id := si.sim_id, blocks := blocks }) := by
  induction sims with
  | nil =>
    intro i acc m h p hp
    simp only [build_loop, Option.some.injEq] at h
    subst h
    exact Or.inl hp
  | cons si rest ih =>
    intro i acc m h p hp
    simp only [build_loop, bind, Option.bind_eq_some] at h
    obtain ⟨blocks, hblocks, hloop⟩ := h
    rcases ih (i + 1) _ m hloop p hp with hacc | ⟨si', hsi', j, blocks', hb', hpe⟩
    · rcases mem_dict_set hacc with h | h
      · exact Or.inl h
      · exact Or.inr ⟨si, by simp, i, blocks, hblocks, h⟩
    · exact Or.inr ⟨si', List.mem_cons_of_mem _ hsi', j, blocks', hb', hpe⟩

lemma build_loop_keys {cfg : NLConfig} {weekend : Bool} {wname : Option String}
    {draws : Nat → Nat → BlockDraws} (sims : List SimInfo) :
    ∀ (i : Nat) (acc m : List (Nat × DailySchedule)),
    build_loop cfg weekend wname draws sims i acc = some m →
    (∀ s ∈ sims, ∀ q ∈ acc, q.1 ≠ s.sim_id) →
    (sims.map SimInfo.sim_id).Nodup →
    m.map Prod.fst = acc.map Prod.fst ++ sims.map SimInfo.sim_id := by
  induction sims with
  | nil =>
    intro i acc m h _ _
    simp only [build_loop, Option.some.injEq] at h
    subst h
    simp
  | cons si rest ih =>
    intro i acc m h hdisj hnodup
    simp only [build_loop, bind, Option.bind_eq_some] at h
    obtain ⟨blocks, hblocks, hloop⟩ := h
    have hfresh : ∀ q ∈ acc, q.1 ≠ si.sim_id :=
      fun q hq => hdisj si (by simp) q hq
    rw [dict_set_fresh hfresh] at hloop
    have hcons : (si.sim_id :: rest.map SimInfo.sim_id).Nodup := by simpa using hnodup
    have hsi_not : si.sim_id ∉ rest.map SimInfo.sim_id := (List.nodup_cons.mp hcons).1
    have hnodup' : (rest.map SimInfo.sim_id).Nodup := (List.nodup_cons.mp hcons).2
    have hdisj' : ∀ s ∈ rest,
        ∀ q ∈ acc ++ [(si.sim_id, ({ sim_id := si.sim_id, blocks := blocks } : DailySchedule))],
        q.1 ≠ s.sim_id := by
      intro s hs q hq
      rcases List.mem_append.mp hq with hqa | hqs
      · exact hdisj s (List.mem_cons_of_mem _ hs) q hqa
      · have hq1 : q.1 = si.sim_id := by
          simp only [List.mem_singleton] at hqs
          rw [hqs]
        rw [hq1]
        intro he
        exact hsi_not (he ▸ List.mem_map_of_mem SimInfo.sim_id hs)
    have hkeys := ih (i + 1) _ m hloop hdisj' hnodup'
    rw [hkeys]
    simp

/-- Claim C4: a successful `build_for_sims` returns exactly one schedule per
requested participant (same ids, same order) and every schedule owns its
participant's id and exactly one block per configured template, in template
order (block `i`'s start minute is the parse of template `i`'s start
time). -/
theorem build_for_sims_shape (cfg : NLConfig) (weekend : Bool) (wname : Option String)
    (sims : List SimInfo) (draws : Nat → Nat → BlockDraws)
    (m : List (Nat × DailySchedule))
    (hnodup : (sims.map SimInfo.sim_id).Nodup)
    (hm : build_for_sims cfg weekend wname sims draws = some m) :
    m.map Prod.fst = sims.map SimInfo.sim_id ∧
    ∀ p ∈ m, p.2.sim_id = p.1 ∧
      p.2.blocks.length = cfg.time_blocks.length ∧
      ∀ i (hi : i < cfg.time_blocks.length) (hi2 : i < p.2.blocks.length),
        time_str_to_minutes (cfg.time_blocks.get ⟨i, hi⟩).start
          = some ((p.2.blocks.get ⟨i, hi2⟩).start_min) := by
  constructor
  · simpa using build_loop_keys sims 0 [] m hm (by simp) hnodup
  · intro p hp
    rcases build_loop_entries sims 0 [] m hm p hp with h | ⟨si, _, j, blocks, hblocks, hpe⟩
    · simp at h
    · subst hpe
      obtain ⟨hlen, hidx⟩ := build_blocks_fields cfg.time_blocks (draws j) 0 blocks hblocks
      exact ⟨rfl, hlen, fun i hi hi2 => (hidx i hi hi2).1⟩

/-- Witness for C4: two distinct participants against the one-template
sample configuration. -/
theorem build_for_sims_shape_witness :
    ((([sample_sim, sample_sim2].map SimInfo.sim_id).Nodup) ∧
     build_for_sims sample_cfg false none [sample_sim, sample_sim2]
         (fun _ _ => ⟨0, 0, 0⟩)
       = some [(1, { sim_id := 1, blocks := [sample_block] }),
               (2, { sim_id := 2, blocks := [sample_block] })]) ∧
    (([(1, ({ sim_id := 1, blocks := [sample_block] } : DailySchedule)),
       (2, { sim_id := 2, blocks := [sample_block] })].map Prod.fst
        = [sample_sim, sample_sim2].map SimInfo.sim_id) ∧
     ∀ p ∈ [(1, ({ sim_id := 1, blocks := [sample_block] } : DailySchedule)),
            (2, { sim_id := 2, blocks := [sample_block] })],
       p.2.sim_id = p.1 ∧
       p.2.blocks.length = sample_cfg.time_blocks.length ∧
       ∀ i (hi : i < sample_cfg.time_blocks.length) (hi2 : i < p.2.blocks.length),
         time_str_to_minutes (sample_cfg.time_blocks.get ⟨i, hi⟩).start
           = some ((p.2.blocks.get ⟨i, hi2⟩).start_min)) :=
  ⟨⟨by decide, by with_unfolding_all decide⟩,
   build_for_sims_shape sample_cfg false none [sample_sim, sample_sim2]
     (fun _ _ => ⟨0, 0, 0⟩)
     [(1, { sim_id := 1, blocks := [sample_block] }),
      (2, { sim_id := 2, blocks := [sample_block] })]
     (by decide) (by with_unfolding_all decide)⟩

/-- Claim C5 (amended): provided every template's start string parses to a minute
in `[0, 1440)` and every template's lower duration bound is at least 1,
every built block has `startMinute ∈ [0, 1440)` and a positive duration
lying inside its template's inclusive `[min, max]` range.  (The source
validates neither condition: see the counterexample for an out-of-range
start and a zero duration flowing straight through the build.) -/
theorem built_blocks_respect_template_ranges (cfg : NLConfig) (weekend : Bool)
    (wname : Option String) (sims : List SimInfo) (draws : Nat → Nat → BlockDraws)
    (m : List (Nat × DailySchedule))
    (hm : build_for_sims cfg weekend wname sims draws = some m)
    (hstart : ∀ tb ∈ cfg.time_blocks, ∀ v : Int,
      time_str_to_minutes tb.start = some v → 0 ≤ v ∧ v < 1440)
    (hdur : ∀ tb ∈ cfg.time_blocks, 1 ≤ tb.dlo) :
    ∀ p ∈ m, ∀ i (hi : i < cfg.time_blocks.length) (hi2 : i < p.2.blocks.length),
      (0 ≤ (p.2.blocks.get ⟨i, hi2⟩).start_min ∧
        (p.2.blocks.get ⟨i, hi2⟩).start_min < 1440) ∧
      0 < (p.2.blocks.get ⟨i, hi2⟩).duration_min ∧
      (cfg.time_blocks.get ⟨i, hi⟩).dlo ≤ (p.2.blocks.get ⟨i, hi2⟩).duration_min ∧
      (p.2.blocks.get ⟨i, hi2⟩).duration_min ≤ (cfg.time_blocks.get ⟨i, hi⟩).dhi := by
  intro p hp i hi hi2
  rcases build_loop_entries sims 0 [] m hm p hp with h | ⟨si, _, j, blocks, hblocks, hpe⟩
  · simp at h
  · subst hpe
    obtain ⟨hlen, hidx⟩ := build_blocks_fields cfg.time_blocks (draws j) 0 blocks hblocks
    obtain ⟨h1, s, h2⟩ := hidx i hi hi2
    have htb : cfg.time_blocks.get ⟨i, hi⟩ ∈ cfg.time_blocks :=
      List.get_mem cfg.time_blocks i hi
    have hs := hstart _ htb _ h1
    have hd := hdur _ htb
    have hr := randint_bounds h2
    exact ⟨hs, lt_of_lt_of_le (by omega) hr.1, hr.1, hr.2⟩

/-- Witness for C5's amended theorem on the sample configuration
(start `"08:00"`, duration range `[30, 30]`). -/
theorem built_blocks_respect_template_ranges_witness :
    (build_for_sims sample_cfg false none [sample_sim] (fun _ _ => ⟨0, 0, 0⟩)
       = some [(1, { sim_id := 1, blocks := [sample_block] })]) ∧
    (∀ p ∈ [(1, ({ sim_id := 1, blocks := [sample_block] } : DailySchedule))],
      ∀ i (hi : i < sample_cfg.time_blocks.length) (hi2 : i < p.2.blocks.length),
        (0 ≤ (p.2.blocks.get ⟨i, hi2⟩).start_min ∧
          (p.2.blocks.get ⟨i, hi2⟩).start_min < 1440) ∧
        0 < (p.2.blocks.get ⟨i, hi2⟩).duration_min ∧
        (sample_cfg.time_blocks.get ⟨i, hi⟩).dlo
          ≤ (p.2.blocks.get ⟨i, hi2⟩).duration_min ∧
        (p.2.blocks.get ⟨i, hi2⟩).duration_min
          ≤ (sample_cfg.time_blocks.get ⟨i, hi⟩).dhi) :=
  ⟨by with_unfolding_all decide,
   built_blocks_respect_template_ranges sample_cfg false none [sample_sim]
     (fun _ _ => ⟨0, 0, 0⟩)
     [(1, { sim_id := 1, blocks := [sample_block] })]
     (by with_unfolding_all decide)
     (by
       intro tb htb v hv
       have htb1 : tb = sample_template := by simpa [sample_cfg] using htb
       subst htb1
       rw [show time_str_to_minutes sample_template.start = some 480 from by decide] at hv
       rw [Option.some.injEq] at hv
       omega)
     (by
       intro tb htb
       have htb1 : tb = sample_template := by simpa [sample_cfg] using htb
       subst htb1
       decide)⟩

/-- Claim C5 counterexample: the config-supplied start string `"25:00"` parses to
minute 1500 and a `[0, 0]` duration range yields duration 0; both flow
unchecked into the built block, refuting the claim as stated. -/
theorem built_block_violates_invariants :
    build_for_sims bad_template_cfg false none [sample_sim] (fun _ _ => ⟨0, 0, 0⟩)
      = some [(1, { sim_id := 1,
                    blocks := [{ start_min := 1500, duration_min := 0,
                                 action := "WALK", venue_tag := none }] })] ∧
    ¬((1500 : Int) < 1440) ∧ ¬(0 < (0 : Int)) := by
  with_unfolding_all decide

end NeighborhoodLife
